import Mathlib

/-!
Shallow embedding of the lead-extraction and conversation-state pipeline of the
pre-sales chatbot (modules `app/langflow/pipeline_config.py`,
`app/langflow/langflow_integration.py`, `app/chat_handler.py`,
`app/database_handler.py`), together with theorems settling the frozen claims
about it.

External effectful collaborators are modelled as explicit oracle parameters:
the LLM completion capability is a function producing either a response text or
an error (Python exception), the TinyDB tables are Lean lists threaded through
the functions, and `time.sleep` calls are recorded in a trace.  Machine
integers do not occur in the modelled code paths; Python strings are Lean
`String`s (lists of characters).
-/

namespace Chatbot

/-- Python `str.isspace` characters relevant to `str.strip()` (ASCII whitespace). -/
def isPySpace (c : Char) : Bool :=
  c = ' ' || c = '\t' || c = '\n' || c = '\r' || c = '\x0b' || c = '\x0c'

/-- Python `str.strip()`: drop whitespace from both ends. -/
def pyStrip (s : String) : String :=
  String.mk (((s.data.dropWhile isPySpace).reverse.dropWhile isPySpace).reverse)

/-- Python `str.lower()` (ASCII case folding, which is all the code compares). -/
def pyLower (s : String) : String :=
  String.mk (s.data.map Char.toLower)

/-- Check whether the first list is an initial segment of the second. -/
def startsWithChars : List Char → List Char → Bool
  | [], _ => true
  | _ :: _, [] => false
  | a :: as, b :: bs => a = b && startsWithChars as bs

/-- Check whether `needle` occurs as a contiguous substring of `hay`.
Models Python `needle in hay` / an anchor-free `re.search` of a literal. -/
def occursIn (needle : List Char) : List Char → Bool
  | [] => needle.isEmpty
  | c :: rest => startsWithChars needle (c :: rest) || occursIn needle rest

/-- Python `" ".join(xs)`. -/
def joinSpace : List String → String
  | [] => ""
  | [s] => s
  | s :: rest => s ++ " " ++ joinSpace rest

/-- Helper for `splitCommas`: accumulate the current segment (reversed). -/
def splitCommaAux : List Char → List Char → List (List Char)
  | [], acc => [acc.reverse]
  | c :: rest, acc =>
      if c = ',' then acc.reverse :: splitCommaAux rest []
      else splitCommaAux rest (c :: acc)

/-- Python `s.split(",")`. -/
def splitCommas (s : String) : List String :=
  (splitCommaAux s.data []).map String.mk

/-- Role of a chat message (`app/chat_handler.py` message TypedDicts). -/
inductive Role where
  | system
  | user
  | assistant
deriving DecidableEq, Repr

/-- A chat message: `{"role": ..., "content": ...}`. -/
structure Message where
  role : Role
  content : String
deriving DecidableEq, Repr

/-- The lead dictionary built by `extract_lead_information`
(`app/langflow/pipeline_config.py`, lines 332-342).  Optional fields model
Python `None`; `features` models the list value; `timestamp` is the
iso-formatted clock reading. -/
structure LeadData where
  client_name : Option String
  client_business : Option String
  contact_information : Option String
  project_description : Option String
  features : List String
  timeline : Option String
  budget_range : Option String
  confirmed_follow_up : Bool
  timestamp : String
deriving DecidableEq, Repr

/-- Python truthiness of an optional string field: `None` and `""` are falsy. -/
def truthyOptStr : Option String → Bool
  | none => false
  | some s => !s.data.isEmpty

/-- The storage-eligibility gate, written from the words of the specification
(section 4.4): client_name non-empty, contact_information non-empty, and
confirmed_follow_up true.  This is the spec-side definition the implemented
gate in `store_lead` is compared against. -/
def specEligible (ld : LeadData) : Prop :=
  (∃ s, ld.client_name = some s ∧ s ≠ "") ∧
  (∃ s, ld.contact_information = some s ∧ s ≠ "") ∧
  ld.confirmed_follow_up = true

instance (ld : LeadData) : Decidable (specEligible ld) := by
  unfold specEligible
  cases h : ld.client_name <;> cases h2 : ld.contact_information <;>
    simp <;> infer_instance

/-- The leads table of the TinyDB database, in insertion order.  TinyDB
assigns document ids 1, 2, ... in insertion order, so the id of a freshly
inserted document is the new length of the table. -/
abbrev LeadsTable := List LeadData

/-- Model of `store_lead` (`app/langflow/pipeline_config.py`, lines 396-429).
Checks the three required fields with Python truthiness (`if not
lead_data.get(field): return None`), re-checks `confirmed_follow_up`, and
otherwise inserts into the `leads` table, returning the new document id.
The returned pair is (result of the call, leads table afterwards). -/
def store_lead (lead_data : LeadData) (leads : LeadsTable) :
    Option Nat × LeadsTable :=
  if !truthyOptStr lead_data.client_name then (none, leads)
  else if !truthyOptStr lead_data.contact_information then (none, leads)
  else if !lead_data.confirmed_follow_up then (none, leads)
  else if !lead_data.confirmed_follow_up then (none, leads)
  else (some (leads.length + 1), leads ++ [lead_data])

/-! ## EntityExtractor: `extract_entity_with_llm` -/

/-- The process-lifetime in-memory cache of `extract_entity_with_llm`
(`extract_entity_with_llm.cache`), an association list from cache-key strings
to cached extraction results; a Python dict assignment is modelled by
prepending, and lookup takes the first (most recent) binding. -/
abbrev Cache := List (String × String)

/-- Dict lookup in the memo cache. -/
def lookupCache (cache : Cache) (key : String) : Option String :=
  match cache.find? (fun p => p.1 = key) with
  | some p => some p.2
  | none => none

/-- Dict assignment `cache[key] = value`. -/
def insertCache (cache : Cache) (key : String) (value : String) : Cache :=
  (key, value) :: cache

/-- The sentinel absence tokens of `extract_entity_with_llm` (line 192):
lowercase forms compared against the stripped, lowercased response. -/
def sentinels : List String := ["not found", "none", "n/a", "unknown"]

/-- Result of one call to `extract_entity_with_llm`: the returned optional
string, the cache afterwards, the number of completion-capability invocations
the call made, and the trace of `time.sleep` durations (in seconds). -/
structure ExtractResult where
  result : Option String
  cache : Cache
  calls : Nat
  sleeps : List Nat
deriving DecidableEq, Repr

/-- The retry loop of `extract_entity_with_llm` (lines 174-211).  `llm i` is
the outcome of the completion invocation at attempt `i` (`Except.error`
models a raised exception).  `remaining` is fuel equal to
`max_retries + 1 - attempt`, so the structure mirrors
`while retry_count <= max_retries`.  On success the response is stripped; a
sentinel yields `none` without caching, otherwise the text is cached and
returned.  On an exception the retry counter is incremented and the loop
sleeps `2 ^ retry_count` seconds before the next attempt. -/
def attemptLoop (llm : Nat → Except Unit String) (cache : Cache) (key : String)
    (max_retries : Nat) : Nat → Nat → Nat → List Nat → ExtractResult
  | _, 0, calls, sleeps => ⟨none, cache, calls, sleeps⟩
  | attempt, remaining + 1, calls, sleeps =>
    match llm attempt with
    | .ok text =>
        let extracted := pyStrip text
        if sentinels.contains (pyLower extracted) then
          ⟨none, cache, calls + 1, sleeps⟩
        else
          ⟨some extracted, insertCache cache key extracted, calls + 1, sleeps⟩
    | .error _ =>
        if attempt + 1 ≤ max_retries then
          attemptLoop llm cache key max_retries (attempt + 1) remaining
            (calls + 1) (sleeps ++ [2 ^ (attempt + 1)])
        else
          ⟨none, cache, calls + 1, sleeps⟩

/-- Model of `extract_entity_with_llm`
(`app/langflow/pipeline_config.py`, lines 121-211).  `pyhash` models the
Python builtin `hash` used in the cache key
`f"{hash(conversation_text)}:{entity_type}"`; `llm` is the completion
capability, indexed by attempt number.  A cache hit returns immediately with
no completion invocation; otherwise the retry loop runs with fuel
`max_retries + 1`. -/
def extract_entity_with_llm (pyhash : String → Int)
    (llm : Nat → Except Unit String) (cache : Cache)
    (conversation_text entity_type : String) (max_retries : Nat) :
    ExtractResult :=
  let cache_key := toString (pyhash conversation_text) ++ ":" ++ entity_type
  match lookupCache cache cache_key with
  | some v => ⟨some v, cache, 0, []⟩
  | none => attemptLoop llm cache cache_key max_retries 0 (max_retries + 1) 0 []

/-! ## Regex fallback: `extract_with_regex` -/

/-- Oracle for the capture-group regex searches of `extract_with_regex`
(`app/langflow/pipeline_config.py`, lines 223-301).  Each field models, for
the corresponding entity type, Python
`re.search(pattern_i, conversation_text)` over the ordered pattern list of
that branch, returning the stripped first capturing group of the first
pattern that matches, or `None`.  The `re` engine is an external library from
the perspective of this embedding, so these searches are uninterpreted
parameters; the consent branch, whose patterns form a finite language and
whose result the claims constrain, is modelled concretely below. -/
structure ReOracle where
  clientName : String → Option String
  businessName : String → Option String
  projectDescription : String → Option String
  projectTimeline : String → Option String
  budgetRange : String → Option String
  projectFeatures : String → Option String

/-- The finite language of the first consent pattern, lowercase:
alternation of an opener word, an optional comma or period, a space, a
permission phrase, a space, and a contact verb. -/
def consentPhrases1 : List String :=
  ["yes", "sure", "okay", "fine", "alright"].flatMap fun w1 =>
    ["", ",", "."].flatMap fun p =>
      ["you can", "please"].flatMap fun w2 =>
        ["contact", "email", "call", "follow up"].map fun w3 =>
          w1 ++ p ++ " " ++ w2 ++ " " ++ w3

/-- The finite language of the second consent pattern. -/
def consentPhrases2 : List String :=
  ["feel free to", "please"].flatMap fun w1 =>
    ["contact", "email", "call", "follow up"].map fun w2 =>
      w1 ++ " " ++ w2

/-- The finite language of the third consent pattern. -/
def consentPhrases3 : List String :=
  ["happy to", "willing to"].flatMap fun w1 =>
    ["discuss", "talk", "chat"].flatMap fun w2 =>
      ["more", "further", "again"].map fun w3 =>
        w1 ++ " " ++ w2 ++ " " ++ w3

/-- All strings matched by the three affirmative-consent regex patterns of the
`follow-up consent (yes/no)` branch (lines 305-309).  The patterns contain no
quantifier other than one optional punctuation character, so each denotes a
finite language and `re.search` with `re.IGNORECASE` succeeds exactly when one
of these lowercase phrases occurs in the lowercased text. -/
def consentPhrases : List String :=
  consentPhrases1 ++ consentPhrases2 ++ consentPhrases3

/-- Case-insensitive search for an affirmative-consent pattern. -/
def consentMatches (conversation_text : String) : Bool :=
  consentPhrases.any fun p => occursIn p.data (pyLower conversation_text).data

/-- Model of `extract_with_regex`
(`app/langflow/pipeline_config.py`, lines 213-317): dispatch on the entity
type; the consent branch returns `"yes"` when an affirmative pattern matches
(case-insensitively) and `"no"` otherwise; every other recognised branch
delegates to the corresponding regex search; an unknown entity type falls
through to `None`. -/
def extract_with_regex (ro : ReOracle) (conversation_text entity_type : String) :
    Option String :=
  if entity_type = "client name" then ro.clientName conversation_text
  else if entity_type = "business name" then ro.businessName conversation_text
  else if entity_type = "project description" then
    ro.projectDescription conversation_text
  else if entity_type = "project timeline" then
    ro.projectTimeline conversation_text
  else if entity_type = "budget range" then ro.budgetRange conversation_text
  else if entity_type = "project features" then
    ro.projectFeatures conversation_text
  else if entity_type = "follow-up consent (yes/no)" then
    if consentMatches conversation_text then some "yes" else some "no"
  else none

/-- The two-layer extraction used at every call site of
`extract_lead_information`: try the LLM-backed extractor, fall back to the
regex extractor when it yields `None` (for example lines 345-347). -/
def extract_with_fallback (pyhash : String → Int)
    (llm : Nat → Except Unit String) (ro : ReOracle) (cache : Cache)
    (conversation_text entity_type : String) (max_retries : Nat) :
    Option String :=
  match (extract_entity_with_llm pyhash llm cache conversation_text entity_type
      max_retries).result with
  | some v => some v
  | none => extract_with_regex ro conversation_text entity_type

/-! ## Email regex: the contact-information extraction

`extract_lead_information` (lines 354-359) finds emails with
`re.findall` on the RFC-5322-lite pattern consisting of: a word boundary, one
or more local-part characters (letters, digits, dot, underscore, percent,
plus, minus), an at sign, one or more domain characters (letters, digits,
dot, minus), a literal dot, at least two characters of the trailing class
(uppercase letters, the pipe character — the character class in the source
literally includes a pipe — and lowercase letters), and a word boundary.
The scanner below implements exactly this pattern with the Python regex
engine's leftmost scan and greedy longest-first backtracking. -/

/-- Python regex word character (`\w` with ASCII semantics of this input). -/
def isWordChar (c : Char) : Bool := c.isAlpha || c.isDigit || c = '_'

/-- Local-part character class of the email pattern. -/
def isEmailLocal (c : Char) : Bool :=
  c.isAlpha || c.isDigit || c = '.' || c = '_' || c = '%' || c = '+' || c = '-'

/-- Domain character class of the email pattern. -/
def isEmailDomain (c : Char) : Bool :=
  c.isAlpha || c.isDigit || c = '.' || c = '-'

/-- Trailing (top-level-domain) character class of the email pattern; the
source class is written with an unescaped pipe, which therefore matches. -/
def isEmailTld (c : Char) : Bool := c.isAlpha || c = '|'

/-- Word-boundary test of the regex `\b` between positions `i - 1` and `i`. -/
def wordBoundaryAt (s : List Char) (i : Nat) : Bool :=
  let left := if 0 < i then
      match s.get? (i - 1) with
      | some c => isWordChar c
      | none => false
    else false
  let right := match s.get? i with
    | some c => isWordChar c
    | none => false
  left != right

/-- Length of the maximal run of characters satisfying `p` starting at `i`. -/
def runLen (p : Char → Bool) (s : List Char) (i : Nat) : Nat :=
  ((s.drop i).takeWhile p).length

/-- Attempt to match the email pattern at position `i`; returns the end
position of the match on success.  The domain-plus-dot split and the trailing
class are backtracked longest-first, as the Python engine does with greedy
quantifiers. -/
def matchEmailAt (s : List Char) (i : Nat) : Option Nat :=
  if !wordBoundaryAt s i then none
  else
    let lrun := runLen isEmailLocal s i
    if lrun = 0 then none
    else
      let j := i + lrun
      if s.get? j ≠ some '@' then none
      else
        let d := j + 1
        let drun := runLen isEmailDomain s d
        (List.range drun).findSome? fun step =>
          let len := drun - step
          if s.get? (d + len) = some '.' then
            let q := d + len + 1
            let trun := runLen isEmailTld s q
            (List.range (trun - 1)).findSome? fun step2 =>
              let tlen := trun - step2
              if wordBoundaryAt s (q + tlen) then some (q + tlen) else none
          else none

/-- The `re.findall` scan: try each position from left to right, and on a
match continue scanning from the match end.  `fuel` bounds the scan by the
text length (every step advances the position). -/
def emailScan (s : List Char) : Nat → Nat → List (Nat × Nat)
  | _, 0 => []
  | i, fuel + 1 =>
    if i < s.length then
      match matchEmailAt s i with
      | some e => (i, e) :: emailScan s e fuel
      | none => emailScan s (i + 1) fuel
    else []

/-- All email matches of the conversation text, in scan order
(`re.findall(email_pattern, conversation_text)`). -/
def emailFindall (conversation_text : String) : List String :=
  (emailScan conversation_text.data 0 (conversation_text.data.length + 1)).map
    fun p => String.mk ((conversation_text.data.drop p.1).take (p.2 - p.1))

/-! ## LeadAggregator: `extract_lead_information` -/

/-- Oracle bundle for the completion capability as used by entity
extraction: `resp kind attempt` is the outcome of the completion invocation
for entity type `kind` at retry attempt `attempt`. -/
structure LlmOracle where
  resp : String → Nat → Except Unit String

/-- One extraction step of `extract_lead_information`: LLM first, regex
fallback on `None`, threading the memo cache. -/
def llmThenRegex (pyhash : String → Int) (o : LlmOracle) (ro : ReOracle)
    (cache : Cache) (conversation_text entity_type : String) :
    Option String × Cache :=
  let r := extract_entity_with_llm pyhash (o.resp entity_type) cache
    conversation_text entity_type 2
  match r.result with
  | some v => (some v, r.cache)
  | none => (extract_with_regex ro conversation_text entity_type, r.cache)

/-- The features-list computation of `extract_lead_information`
(lines 371-374): `if features_text:` is Python truthiness, so `None` and the
empty string leave the initial empty list; otherwise the string is split on
commas and each segment is stripped. -/
def computeFeatures (features_text : Option String) : List String :=
  match features_text with
  | none => []
  | some s => if s.data.isEmpty then [] else (splitCommas s).map pyStrip

/-- The consent normalisation of `extract_lead_information` (line 391):
`confirmed_follow_up` becomes true iff the consent text is truthy and its
lowercase form is one of yes, true, confirmed. -/
def consentConfirmed (consent_text : Option String) : Bool :=
  match consent_text with
  | none => false
  | some s => ["yes", "true", "confirmed"].contains (pyLower s)

/-- Model of `extract_lead_information`
(`app/langflow/pipeline_config.py`, lines 319-394): flatten the history into
one text, then extract the seven fields in source order (client name,
business name, contact email by regex only, project description, features,
timeline, budget range, consent), threading the extractor cache. `now` is
`datetime.datetime.now().isoformat()`.  Returns the lead dictionary and the
cache afterwards. -/
def extract_lead_information (pyhash : String → Int) (o : LlmOracle)
    (ro : ReOracle) (cache : Cache) (conversation_history : List Message)
    (now : String) : LeadData × Cache :=
  let conversation_text := joinSpace (conversation_history.map (·.content))
  let p1 := llmThenRegex pyhash o ro cache conversation_text "client name"
  let p2 := llmThenRegex pyhash o ro p1.2 conversation_text "business name"
  let contact_information := (emailFindall conversation_text).head?
  let p3 := llmThenRegex pyhash o ro p2.2 conversation_text
    "project description"
  let p4 := llmThenRegex pyhash o ro p3.2 conversation_text "project features"
  let features := computeFeatures p4.1
  let p5 := llmThenRegex pyhash o ro p4.2 conversation_text "project timeline"
  let p6 := llmThenRegex pyhash o ro p5.2 conversation_text "budget range"
  let p7 := llmThenRegex pyhash o ro p6.2 conversation_text
    "follow-up consent (yes/no)"
  let confirmed_follow_up := consentConfirmed p7.1
  (⟨p1.1, p2.1, contact_information, p3.1, features, p5.1, p6.1,
    confirmed_follow_up, now⟩, p7.2)

/-- The features extraction value used inside `extract_lead_information`,
replayed: the combined LLM-then-regex result for `project features` at the
cache state reached after the client-name, business-name and
project-description extractions. -/
def featuresTextOf (pyhash : String → Int) (o : LlmOracle) (ro : ReOracle)
    (cache : Cache) (conversation_history : List Message) : Option String :=
  let conversation_text := joinSpace (conversation_history.map (·.content))
  let p1 := llmThenRegex pyhash o ro cache conversation_text "client name"
  let p2 := llmThenRegex pyhash o ro p1.2 conversation_text "business name"
  let p3 := llmThenRegex pyhash o ro p2.2 conversation_text
    "project description"
  (llmThenRegex pyhash o ro p3.2 conversation_text "project features").1

/-! ## ConversationStateStore: the `conversations` table -/

/-- A document of the `conversations` table
(`ConversationHistory` in `app/chat_handler.py`). -/
structure ConvDoc where
  user_id : String
  session_id : String
  messages : List Message
  created_at : String
  updated_at : String
deriving DecidableEq, Repr

/-- The `conversations` table; position `i` holds the document with TinyDB
document id `i + 1` (ids are assigned sequentially from 1 and the code never
deletes conversation documents). -/
abbrev ConvTable := List ConvDoc

/-- Model of `DatabaseHandler.query_table("conversations", "session_id", s)`:
all documents whose `session_id` equals `s`, in id order. -/
def query_conversations (db : ConvTable) (session_id : String) : List ConvDoc :=
  db.filter fun c => c.session_id == session_id

/-- Model of `get_conversation_history` (`app/chat_handler.py`,
lines 199-228): the messages of the first matching conversation document, or
the empty list. -/
def get_conversation_history (db : ConvTable) (session_id : String) :
    List Message :=
  match query_conversations db session_id with
  | [] => []
  | c :: _ => c.messages

/-- The update performed by `save_conversation_history` through
`DatabaseHandler.update_document`: scan the table in id order for the first
document with the given session id and merge `{"messages": msgs,
"updated_at": ts}` into it, leaving every other field and document unchanged
(TinyDB `table.update` merges the given fields into the document). -/
def updateFirstConv (session_id : String) (msgs : List Message) (ts : String) :
    ConvTable → ConvTable
  | [] => []
  | c :: rest =>
      if c.session_id == session_id then
        { c with messages := msgs, updated_at := ts } :: rest
      else c :: updateFirstConv session_id msgs ts rest

/-- Model of `save_conversation_history` (`app/chat_handler.py`,
lines 230-299): if a conversation document for the session exists, update its
`messages` and `updated_at` fields in place; otherwise insert a new document
carrying all five fields.  Returns the success flag and the table
afterwards. -/
def save_conversation_history (user_id session_id : String)
    (messages : List Message) (ts : String) (db : ConvTable) :
    Bool × ConvTable :=
  if (query_conversations db session_id).isEmpty then
    (true, db ++ [⟨user_id, session_id, messages, ts, ts⟩])
  else
    (true, updateFirstConv session_id messages ts db)

/-- Model of `store_conversation` (`app/langflow/pipeline_config.py`,
lines 431-465): unconditionally insert a fresh conversation document. -/
def store_conversation (conversation_history : List Message)
    (session_id user_id : String) (now : String) (db : ConvTable) :
    Option Nat × ConvTable :=
  (some (db.length + 1),
   db ++ [⟨user_id, session_id, conversation_history, now, now⟩])

/-! ## DialogueOrchestrator: `process_message` and `process_chat_message` -/

/-- The fixed apology returned when the completion capability fails inside
`LLMHandler.generate_response` (`app/chat_handler.py`, line 163) and in the
direct-LiteLLM fallback of `process_chat_message` (line 443); both sites use
the identical text. -/
def apologyText : String :=
  "I'm sorry, I encountered an error. Please try again later."

/-- Model of `LLMHandler.generate_response` (`app/chat_handler.py`,
lines 98-163): assemble the system message, the non-system part of the
history and the user message, invoke the completion capability on them, and
catch any exception into the fixed apology text. -/
def generate_response (llm : List Message → Except Unit String)
    (system_prompt user_message : String) (conversation_history : List Message) :
    String :=
  let messages := ⟨Role.system, system_prompt⟩ ::
    (conversation_history.filter fun m => m.role ≠ Role.system) ++
    [⟨Role.user, user_message⟩]
  match llm messages with
  | .ok t => t
  | .error _ => apologyText

/-- Budget keywords of the intent classification
(`app/langflow/langflow_integration.py`, lines 105-107). -/
def budgetKeywords : List String :=
  ["budget", "cost", "price", "pricing", "how much", "expensive", "cheap",
   "afford"]

/-- Timeline keywords of the intent classification (lines 110-112). -/
def timelineKeywords : List String :=
  ["timeline", "time", "duration", "how long", "schedule", "deadline", "when"]

/-- Python `any(keyword in message_lower for keyword in ...)`. -/
def anyKeywordIn (keywords : List String) (message : String) : Bool :=
  keywords.any fun k => occursIn k.data (pyLower message).data

/-- The oracle and prompt-composition context of one chat turn.  `llm` is the
completion capability as invoked for the response
(`litellm.completion` on an assembled message list); `entityLlm` is the same
capability as invoked by entity extraction, indexed by entity kind and
attempt; `pyhash` and `ro` are as in the extractor; the three prompt fields
model the system prompts composed in the budget, timeline and default
branches of `LangFlowIntegration.process_message` (the budget and timeline
prompts embed guidance text obtained from the out-of-scope GuidanceStore
collaborator, so their exact contents are oracle inputs here), and
`sysPrompt` is the standing `SYSTEM_PROMPT` used by the fallback path. -/
structure TurnDeps where
  llm : List Message → Except Unit String
  entityLlm : String → Nat → Except Unit String
  pyhash : String → Int
  ro : ReOracle
  budgetPrompt : String
  timelinePrompt : String
  defaultPrompt : String
  sysPrompt : String

/-- Model of `LangFlowIntegration.process_message`
(`app/langflow/langflow_integration.py`, lines 48-229) on the local
simulation path (`USE_LANGFLOW_API` false, as in the deployed configuration).
Classifies the message (budget beats timeline beats default), generates the
response through `generate_response` (which never raises), then runs lead
extraction and conditional lead storage, and stores the conversation.

The argument of both `extract_lead_information` and `store_conversation` in
the source is the expression `conversation_history or [] + [...]`, in which
Python operator precedence makes `+` bind tighter than `or`: with a non-empty
history the current turn messages are NOT appended, while with an empty
history the two turn messages alone are used.  The model reproduces this.

Returns (response text, extractor cache, conversations table, leads table)
after the call. -/
def process_message (d : TurnDeps) (message session_id user_id : String)
    (conversation_history : List Message) (cache : Cache) (db : ConvTable)
    (leads : LeadsTable) (now : String) :
    String × Cache × ConvTable × LeadsTable :=
  let system_prompt :=
    if anyKeywordIn budgetKeywords message then d.budgetPrompt
    else if anyKeywordIn timelineKeywords message then d.timelinePrompt
    else d.defaultPrompt
  let response_text := generate_response d.llm system_prompt message
    conversation_history
  let historyOrTurn :=
    if conversation_history.isEmpty then
      [⟨Role.user, message⟩, ⟨Role.assistant, response_text⟩]
    else conversation_history
  let ext := extract_lead_information d.pyhash ⟨d.entityLlm⟩
    d.ro cache historyOrTurn now
  let leads' :=
    if (ext.1.confirmed_follow_up && truthyOptStr ext.1.client_name) &&
        truthyOptStr ext.1.contact_information then
      (store_lead ext.1 leads).2
    else leads
  let db' := (store_conversation historyOrTurn session_id user_id now db).2
  (response_text, ext.2, db', leads')

/-- Model of `process_chat_message` (`app/chat_handler.py`, lines 301-443).
`session_id?` is the optional inbound session id (Python falsiness treats the
empty string like `None`); `fresh` is the UUID `generate_session_id` would
produce if needed.  `langflowOk` tells whether the LangFlow integration path
is available; when it is not (an exception before or during the integration
call, for example at import), the direct-LiteLLM fallback runs: it prepends
the standing system prompt to an empty history, appends the user message,
invokes the completion capability, and on success appends the response and
saves; on an exception it returns the fixed apology without saving.

Returns ((response text, session id), extractor cache, conversations table,
leads table). -/
def process_chat_message (d : TurnDeps) (langflowOk : Bool)
    (user_id message : String) (session_id? : Option String) (fresh : String)
    (now : String) (cache : Cache) (db : ConvTable) (leads : LeadsTable) :
    (String × String) × Cache × ConvTable × LeadsTable :=
  let session_id := match session_id? with
    | none => fresh
    | some s => if s.data.isEmpty then fresh else s
  let conversation_history := get_conversation_history db session_id
  if langflowOk then
    let pm := process_message d message
      session_id user_id conversation_history cache db leads now
    let history' := conversation_history ++
      [⟨Role.user, message⟩, ⟨Role.assistant, pm.1⟩]
    let db'' := (save_conversation_history user_id session_id history' now
      pm.2.2.1).2
    ((pm.1, session_id), pm.2.1, db'', pm.2.2.2)
  else
    let history0 :=
      if conversation_history.isEmpty then [⟨Role.system, d.sysPrompt⟩]
      else conversation_history
    let history1 := history0 ++ [⟨Role.user, message⟩]
    match d.llm history1 with
    | .ok t =>
        let history2 := history1 ++ [⟨Role.assistant, t⟩]
        let db' := (save_conversation_history user_id session_id history2 now
          db).2
        ((t, session_id), cache, db', leads)
    | .error _ => ((apologyText, session_id), cache, db, leads)

/-! ## Concrete instantiations used by witnesses and counterexamples -/

/-- A hash function instance for concrete runs (any function works: the
claims quantify over the hash). -/
def hashZero : String → Int := fun _ => 0

/-- A completion capability that always answers with the sentinel text. -/
def sentinelOracle : Nat → Except Unit String := fun _ => .ok "Not found"

/-- A completion capability that always raises. -/
def failingOracle : Nat → Except Unit String := fun _ => .error ()

/-- A regex oracle whose capture-group searches all miss. -/
def roNone : ReOracle :=
  ⟨fun _ => none, fun _ => none, fun _ => none, fun _ => none, fun _ => none,
   fun _ => none⟩

/-- An entity-extraction capability answering a comma-free feature list and
innocuous values for the other entity kinds. -/
def c8Oracle : LlmOracle :=
  ⟨fun k _ => .ok (if k = "project features" then "user login" else "x")⟩

/-- Concrete turn dependencies whose completion capability always raises. -/
def errorDeps : TurnDeps :=
  ⟨fun _ => .error (), fun _ _ => .error (), hashZero, roNone, "bp", "tp",
   "dp", "sp"⟩

/-- Concrete turn dependencies whose completion capability always answers
with a fixed text. -/
def okDeps : TurnDeps :=
  ⟨fun _ => .ok "fine", fun _ _ => .ok "x", hashZero, roNone, "bp", "tp",
   "dp", "sp"⟩

/-- A concrete stored conversation document. -/
def demoDoc : ConvDoc := ⟨"u0", "s1", [], "c0", "t0"⟩

/-! ## Helper lemmas -/

lemma string_ne_empty_iff (s : String) : s ≠ "" ↔ s.data.isEmpty = false := by
  obtain ⟨l⟩ := s
  cases l <;> simp [String.ext_iff]

/-! ## Claim theorems -/

/-- Claim C1: the storage-eligibility gate of `store_lead` admits persistence
iff `client_name` is non-empty, `contact_information` is non-empty, and
`confirmed_follow_up` is true; whenever any of the three is absent, empty or
false, `store_lead` writes nothing and returns `None`; when all three hold it
appends the record and returns the fresh document id. -/
theorem store_lead_eligibility_gate (ld : LeadData) (leads : LeadsTable) :
    store_lead ld leads =
      if specEligible ld then (some (leads.length + 1), leads ++ [ld])
      else (none, leads) := by
  obtain ⟨cn, cb, ci, pd, fs, tl, br, cf, ts⟩ := ld
  simp only [store_lead, specEligible, truthyOptStr]
  cases cn with
  | none => simp
  | some s =>
    cases ci with
    | none => simp
    | some s2 =>
      cases cf with
      | false => simp [string_ne_empty_iff]
      | true =>
        cases h : s.data.isEmpty <;> cases h2 : s2.data.isEmpty <;>
          simp_all [string_ne_empty_iff]

/-- Claim C5: for every text, the regex fallback for the follow-up-consent
entity kind is total into the set of values yes and no — it never returns
`None` — and it returns yes exactly when one of the affirmative-consent
phrases occurs case-insensitively in the text. -/
theorem consent_regex_total (ro : ReOracle) (t : String) :
    (extract_with_regex ro t "follow-up consent (yes/no)" = some "yes" ∨
      extract_with_regex ro t "follow-up consent (yes/no)" = some "no") ∧
    (extract_with_regex ro t "follow-up consent (yes/no)" = some "yes" ↔
      ∃ p ∈ consentPhrases, occursIn p.data (pyLower t).data = true) := by
  have hval : extract_with_regex ro t "follow-up consent (yes/no)" =
      if consentMatches t then some "yes" else some "no" := by
    simp [extract_with_regex]
  rw [hval]
  cases h : consentMatches t with
  | true =>
    refine ⟨Or.inl rfl, ?_⟩
    simp only [consentMatches, List.any_eq_true] at h
    simpa using h
  | false =>
    refine ⟨Or.inr rfl, ?_⟩
    constructor
    · intro hcontra
      simp at hcontra
    · rintro ⟨p, hp, hocc⟩
      rw [consentMatches, List.any_eq_false] at h
      exact absurd hocc (by simpa using h p hp)

/-- Claim C4: during lead aggregation the `contact_information` field is
computed by the email regex alone — it equals the first `re.findall` match
over the flattened conversation text for every completion oracle, regex
oracle, cache and history, so the completion capability is never consulted
for it — and on a conversation containing the sentence about
john at example.com the extracted value is exactly that address. -/
theorem contact_information_regex_only (pyhash : String → Int)
    (o : LlmOracle) (ro : ReOracle) (cache : Cache) (now : String) :
    (∀ hist : List Message,
      (extract_lead_information pyhash o ro cache hist now).1.contact_information
        = (emailFindall (joinSpace (hist.map (·.content)))).head?) ∧
    (extract_lead_information pyhash o ro cache
        [⟨Role.user, "You can contact me at john@example.com for follow-up."⟩]
        now).1.contact_information = some "john@example.com" := by
  refine ⟨fun hist => rfl, ?_⟩
  show (emailFindall
    (joinSpace ["You can contact me at john@example.com for follow-up."])).head?
      = some "john@example.com"
  decide

/-- Claim C8, counterexample: with a completion capability that answers the
comma-free string user login for the project-features entity kind, lead
aggregation produces the singleton features sequence, not the empty
sequence demanded by the claim for comma-free strings. -/
theorem features_comma_free_counterexample :
    featuresTextOf hashZero c8Oracle roNone [] [⟨Role.user, "hello"⟩]
        = some "user login" ∧
    occursIn [','] "user login".data = false ∧
    (extract_lead_information hashZero c8Oracle roNone [] [⟨Role.user, "hello"⟩]
        "t").1.features = ["user login"] := by
  refine ⟨by decide, by decide, by decide⟩

/-- Claim C8, amended: the features field equals `computeFeatures` of the
extracted features string, where a non-empty string (comma-bearing or not)
is split on commas with each segment stripped — so a comma-free string
yields a one-element sequence — and absence or the empty string yields the
empty sequence. -/
theorem features_field_amended (pyhash : String → Int) (o : LlmOracle)
    (ro : ReOracle) (cache : Cache) (hist : List Message) (now : String) :
    (extract_lead_information pyhash o ro cache hist now).1.features
        = computeFeatures (featuresTextOf pyhash o ro cache hist) ∧
    (∀ s : String, computeFeatures (some s)
        = if s.data.isEmpty then [] else (splitCommas s).map pyStrip) ∧
    computeFeatures none = [] :=
  ⟨rfl, fun _ => rfl, rfl⟩

lemma attemptLoop_cache_of_some (llm : Nat → Except Unit String)
    (cache : Cache) (key : String) (mr : Nat) :
    ∀ remaining attempt calls sleeps v,
      (attemptLoop llm cache key mr attempt remaining calls sleeps).result
          = some v →
      (attemptLoop llm cache key mr attempt remaining calls sleeps).cache
          = insertCache cache key v := by
  intro remaining
  induction remaining with
  | zero => intro attempt calls sleeps v h; simp [attemptLoop] at h
  | succ n ih =>
    intro attempt calls sleeps v h
    rw [attemptLoop] at h ⊢
    cases hllm : llm attempt with
    | ok text =>
      rw [hllm] at h
      by_cases hs : pyLower (pyStrip text) ∈ sentinels
      · simp [hs] at h
      · simp [hs] at h ⊢
        simp [h]
    | error e =>
      rw [hllm] at h
      by_cases hle : attempt + 1 ≤ mr
      · simp only [if_pos hle] at h ⊢
        exact ih _ _ _ v h
      · simp [if_neg hle] at h

lemma extract_some_cached (pyhash : String → Int)
    (llm : Nat → Except Unit String) (cache : Cache) (t k : String) (mr : Nat)
    (v : String)
    (h : (extract_entity_with_llm pyhash llm cache t k mr).result = some v) :
    lookupCache (extract_entity_with_llm pyhash llm cache t k mr).cache
        (toString (pyhash t) ++ ":" ++ k) = some v := by
  rw [extract_entity_with_llm] at h ⊢
  cases hl : lookupCache cache (toString (pyhash t) ++ ":" ++ k) with
  | some w =>
    rw [hl] at h
    simp at h ⊢
    rw [hl]
    simp [h]
  | none =>
    rw [hl] at h
    simp at h ⊢
    rw [attemptLoop_cache_of_some llm cache
      (toString (pyhash t) ++ ":" ++ k) mr (mr + 1) 0 0 [] v h]
    simp [lookupCache, insertCache, List.find?]

/-- Claim C2, counterexample: when the completion capability answers the
sentinel text, the first extractor call returns `None` and caches nothing,
so a second call with the identical pair invokes the completion capability
again (one invocation, not zero) instead of being served from the cache. -/
theorem extract_cache_counterexample :
    (extract_entity_with_llm hashZero sentinelOracle [] "hi" "client name"
        2).result = none ∧
    (extract_entity_with_llm hashZero sentinelOracle [] "hi" "client name"
        2).cache = [] ∧
    (extract_entity_with_llm hashZero sentinelOracle
        (extract_entity_with_llm hashZero sentinelOracle [] "hi" "client name"
          2).cache
        "hi" "client name" 2).calls = 1 :=
  ⟨by decide, by decide, by decide⟩

/-- Claim C2, amended: whenever a first extractor call returns a non-`None`
value, a second call with the identical pair — under any completion oracle —
returns the identical value served from the memoized cache, with zero
completion invocations, no sleeping, and an unchanged cache.  (A first call
that returns `None` caches nothing, so the second call invokes the
completion capability again; see the counterexample.) -/
theorem extract_cache_idempotent (pyhash : String → Int)
    (llm llm2 : Nat → Except Unit String) (cache : Cache) (t k : String)
    (mr : Nat) (v : String)
    (h : (extract_entity_with_llm pyhash llm cache t k mr).result = some v) :
    extract_entity_with_llm pyhash llm2
        (extract_entity_with_llm pyhash llm cache t k mr).cache t k mr
      = ⟨some v, (extract_entity_with_llm pyhash llm cache t k mr).cache,
          0, []⟩ := by
  have hc := extract_some_cached pyhash llm cache t k mr v h
  rw [extract_entity_with_llm, hc]

/-- Witness for the amended claim C2 at a concrete successful extraction. -/
theorem extract_cache_idempotent_witness :
    (extract_entity_with_llm hashZero (fun _ => .ok "Alice") [] "hi"
        "client name" 2).result = some "Alice" ∧
    extract_entity_with_llm hashZero failingOracle
        (extract_entity_with_llm hashZero (fun _ => .ok "Alice") [] "hi"
          "client name" 2).cache "hi" "client name" 2
      = ⟨some "Alice",
          (extract_entity_with_llm hashZero (fun _ => .ok "Alice") [] "hi"
            "client name" 2).cache, 0, []⟩ :=
  ⟨by decide,
   extract_cache_idempotent hashZero (fun _ => .ok "Alice") failingOracle []
     "hi" "client name" 2 "Alice" (by decide)⟩

lemma attemptLoop_error_step (llm : Nat → Except Unit String) (cache : Cache)
    (key : String) (mr attempt remaining calls : Nat) (sleeps : List Nat)
    (he : llm attempt = .error ()) (hle : attempt + 1 ≤ mr) :
    attemptLoop llm cache key mr attempt (remaining + 1) calls sleeps
      = attemptLoop llm cache key mr (attempt + 1) remaining (calls + 1)
          (sleeps ++ [2 ^ (attempt + 1)]) := by
  rw [attemptLoop, he]
  simp [hle]

lemma attemptLoop_sentinel_none (llm : Nat → Except Unit String)
    (cache : Cache) (key : String) (mr i : Nat) (s : String)
    (hok : llm i = .ok s) (hsent : pyLower (pyStrip s) ∈ sentinels) :
    ∀ remaining attempt calls sleeps,
      attempt + remaining = mr + 1 → attempt ≤ i → i ≤ mr →
      (∀ j, attempt ≤ j → j < i → llm j = .error ()) →
      (attemptLoop llm cache key mr attempt remaining calls sleeps).result
          = none ∧
      (attemptLoop llm cache key mr attempt remaining calls sleeps).cache
          = cache := by
  intro remaining
  induction remaining with
  | zero =>
    intro attempt calls sleeps hfuel hai him _
    exact absurd hfuel (by omega)
  | succ n ih =>
    intro attempt calls sleeps hfuel hai him hfail
    rcases eq_or_lt_of_le hai with heq | hlt
    · subst heq
      rw [attemptLoop, hok]
      simp [hsent]
    · have he := hfail attempt le_rfl hlt
      rw [attemptLoop_error_step llm cache key mr attempt n calls sleeps he
        (by omega)]
      exact ih (attempt + 1) (calls + 1) (sleeps ++ [2 ^ (attempt + 1)])
        (by omega) (by omega) him (fun j h1 h2 => hfail j (by omega) h2)

/-- Claim C3: when the completion capability eventually answers a text whose
strip-and-lowercase form is one of the sentinel absence tokens (after any
number of failed attempts), the extractor returns `None` with an unchanged
cache, and the two-layer extraction result is the regex-fallback value — the
literal sentinel text is never returned. -/
theorem sentinel_never_returned (pyhash : String → Int)
    (llm : Nat → Except Unit String) (ro : ReOracle) (cache : Cache)
    (t k : String) (mr i : Nat) (s : String)
    (hkey : lookupCache cache (toString (pyhash t) ++ ":" ++ k) = none)
    (hi : i ≤ mr) (hfail : ∀ j, j < i → llm j = .error ())
    (hok : llm i = .ok s) (hsent : pyLower (pyStrip s) ∈ sentinels) :
    (extract_entity_with_llm pyhash llm cache t k mr).result = none ∧
    (extract_entity_with_llm pyhash llm cache t k mr).cache = cache ∧
    extract_with_fallback pyhash llm ro cache t k mr
      = extract_with_regex ro t k := by
  have hmain := attemptLoop_sentinel_none llm cache
    (toString (pyhash t) ++ ":" ++ k) mr i s hok hsent (mr + 1) 0 0 []
    (by omega) (Nat.zero_le i) hi (fun j _ h2 => hfail j h2)
  have hrw : extract_entity_with_llm pyhash llm cache t k mr
      = attemptLoop llm cache (toString (pyhash t) ++ ":" ++ k) mr 0 (mr + 1)
          0 [] := by
    rw [extract_entity_with_llm, hkey]
  refine ⟨by rw [hrw]; exact hmain.1, by rw [hrw]; exact hmain.2, ?_⟩
  rw [extract_with_fallback, hrw, hmain.1]

/-- Witness for claim C3 at a concrete sentinel-answering oracle. -/
theorem sentinel_never_returned_witness :
    pyLower (pyStrip "Not found") ∈ sentinels ∧
    ((extract_entity_with_llm hashZero sentinelOracle [] "hi" "client name"
        2).result = none ∧
     (extract_entity_with_llm hashZero sentinelOracle [] "hi" "client name"
        2).cache = [] ∧
     extract_with_fallback hashZero sentinelOracle roNone [] "hi"
        "client name" 2 = extract_with_regex roNone "hi" "client name") :=
  ⟨by decide,
   sentinel_never_returned hashZero sentinelOracle roNone [] "hi"
     "client name" 2 0 "Not found" (by decide) (by decide)
     (fun j hj => absurd hj (Nat.not_lt_zero j)) rfl (by decide)⟩

lemma attemptLoop_all_error (llm : Nat → Except Unit String) (cache : Cache)
    (key : String) (mr : Nat) (hfail : ∀ j, j ≤ mr → llm j = .error ()) :
    ∀ remaining attempt calls sleeps,
      attempt + remaining = mr + 1 →
      attemptLoop llm cache key mr attempt remaining calls sleeps
        = ⟨none, cache, calls + remaining,
            sleeps ++ (List.range' (attempt + 1) (mr - attempt)).map
              (2 ^ ·)⟩ := by
  intro remaining
  induction remaining with
  | zero =>
    intro attempt calls sleeps hfuel
    have h0 : mr - attempt = 0 := by omega
    simp [attemptLoop, h0]
  | succ n ih =>
    intro attempt calls sleeps hfuel
    have he := hfail attempt (by omega)
    by_cases hle : attempt + 1 ≤ mr
    · rw [attemptLoop_error_step llm cache key mr attempt n calls sleeps he
        hle, ih (attempt + 1) (calls + 1) (sleeps ++ [2 ^ (attempt + 1)])
        (by omega)]
      have hn : mr - attempt = (mr - (attempt + 1)) + 1 := by omega
      rw [hn, List.range'_succ]
      simp [List.append_assoc]
      omega
    · have hm : attempt = mr := by omega
      subst hm
      have hn0 : n = 0 := by omega
      subst hn0
      rw [attemptLoop, he]
      simp [hle, Nat.sub_self]

/-- Claim C6: when the cache misses and every completion attempt raises, the
extractor propagates no exception: it makes exactly `max_retries + 1`
completion invocations (one initial plus `max_retries` additional attempts),
sleeps `2 ^ attempt` seconds after the failing attempt numbered `attempt`
(for attempts `1 .. max_retries`), returns `None` with an unchanged cache,
and the two-layer extraction degrades to the regex-fallback value. -/
theorem completion_failure_returns_none (pyhash : String → Int)
    (llm : Nat → Except Unit String) (ro : ReOracle) (cache : Cache)
    (t k : String) (mr : Nat)
    (hkey : lookupCache cache (toString (pyhash t) ++ ":" ++ k) = none)
    (hfail : ∀ j, j ≤ mr → llm j = .error ()) :
    extract_entity_with_llm pyhash llm cache t k mr
        = ⟨none, cache, mr + 1, (List.range' 1 mr).map (2 ^ ·)⟩ ∧
    extract_with_fallback pyhash llm ro cache t k mr
        = extract_with_regex ro t k := by
  have h1 : extract_entity_with_llm pyhash llm cache t k mr
      = ⟨none, cache, mr + 1, (List.range' 1 mr).map (2 ^ ·)⟩ := by
    rw [extract_entity_with_llm, hkey]
    simpa using attemptLoop_all_error llm cache
      (toString (pyhash t) ++ ":" ++ k) mr hfail (mr + 1) 0 0 [] (by omega)
  refine ⟨h1, ?_⟩
  rw [extract_with_fallback, h1]

/-- Witness for claim C6 at the always-failing oracle with the default two
retries: three invocations, sleeps of two and four seconds, result absent. -/
theorem completion_failure_returns_none_witness :
    lookupCache [] (toString (hashZero "hi") ++ ":" ++ "client name")
        = none ∧
    extract_entity_with_llm hashZero failingOracle [] "hi" "client name" 2
        = ⟨none, [], 2 + 1, (List.range' 1 2).map (2 ^ ·)⟩ :=
  ⟨by decide,
   (completion_failure_returns_none hashZero failingOracle roNone [] "hi"
     "client name" 2 (by decide) (fun j _ => rfl)).1⟩

lemma query_updateFirstConv (s : String) (msgs : List Message) (ts : String) :
    ∀ db : ConvTable,
      query_conversations (updateFirstConv s msgs ts db) s
        = match query_conversations db s with
          | [] => []
          | c :: rest => { c with messages := msgs, updated_at := ts } ::
              rest := by
  intro db
  induction db with
  | nil => rfl
  | cons c rest ih =>
    cases hcb : c.session_id == s with
    | true =>
      simp only [updateFirstConv, hcb, if_true, query_conversations,
        List.filter_cons]
    | false =>
      simp only [updateFirstConv, hcb, Bool.false_eq_true, if_false,
        query_conversations, List.filter_cons]
      exact ih

lemma get_after_save (u s : String) (msgs : List Message) (ts : String)
    (db : ConvTable) :
    get_conversation_history ((save_conversation_history u s msgs ts db).2) s
      = msgs := by
  rw [save_conversation_history]
  cases hq : query_conversations db s with
  | nil =>
    simp only [List.isEmpty_nil, if_true]
    unfold get_conversation_history query_conversations
    rw [List.filter_append,
      show db.filter (fun c => c.session_id == s) = [] from hq]
    simp
  | cons c rest =>
    simp only [List.isEmpty_cons, Bool.false_eq_true, if_false]
    unfold get_conversation_history
    rw [query_updateFirstConv, hq]

lemma mem_zip_self {α : Type _} (l : List α) : ∀ p ∈ l.zip l, p.2 = p.1 := by
  induction l with
  | nil => simp
  | cons a t ih =>
    intro p hp
    simp only [List.zip_cons_cons, List.mem_cons] at hp
    rcases hp with h | h
    · rw [h]
    · exact ih p h

lemma updateFirstConv_frame (s : String) (msgs : List Message) (ts : String) :
    ∀ db : ConvTable,
      (updateFirstConv s msgs ts db).length = db.length ∧
      (updateFirstConv s msgs ts db).map (·.user_id) = db.map (·.user_id) ∧
      (updateFirstConv s msgs ts db).map (·.session_id)
          = db.map (·.session_id) ∧
      (updateFirstConv s msgs ts db).map (·.created_at)
          = db.map (·.created_at) ∧
      ∀ p ∈ db.zip (updateFirstConv s msgs ts db),
        p.2 = p.1 ∨ p.2 = { p.1 with messages := msgs, updated_at := ts } := by
  intro db
  induction db with
  | nil => simp [updateFirstConv]
  | cons c rest ih =>
    cases hcb : c.session_id == s with
    | true =>
      simp only [updateFirstConv, hcb, if_true]
      refine ⟨by simp, by simp, by simp, by simp, ?_⟩
      intro p hp
      simp only [List.zip_cons_cons, List.mem_cons] at hp
      rcases hp with h | h
      · right; rw [h]
      · left; exact mem_zip_self rest p h
    | false =>
      simp only [updateFirstConv, hcb, Bool.false_eq_true, if_false]
      obtain ⟨h1, h2, h3, h4, h5⟩ := ih
      refine ⟨by simp [h1], by simp [h2], by simp [h3], by simp [h4], ?_⟩
      intro p hp
      simp only [List.zip_cons_cons, List.mem_cons] at hp
      rcases hp with h | h
      · left; rw [h]
      · exact h5 p h

/-- Claim C10: saving conversation history for a session that already has a
stored conversation document keeps the table length and leaves every stored
`user_id`, `session_id` and `created_at` unchanged; any document the save
changes differs only in its `messages` and `updated_at` fields. -/
theorem save_updates_only_messages_and_updated_at (u s : String)
    (msgs : List Message) (ts : String) (db : ConvTable)
    (hex : query_conversations db s ≠ []) :
    ((save_conversation_history u s msgs ts db).2).length = db.length ∧
    ((save_conversation_history u s msgs ts db).2).map (·.user_id)
        = db.map (·.user_id) ∧
    ((save_conversation_history u s msgs ts db).2).map (·.session_id)
        = db.map (·.session_id) ∧
    ((save_conversation_history u s msgs ts db).2).map (·.created_at)
        = db.map (·.created_at) ∧
    ∀ p ∈ db.zip ((save_conversation_history u s msgs ts db).2),
      p.2 = p.1 ∨ p.2 = { p.1 with messages := msgs, updated_at := ts } := by
  have hne : (query_conversations db s).isEmpty = false := by
    cases hq : query_conversations db s with
    | nil => exact absurd hq hex
    | cons c rest => rfl
  rw [save_conversation_history, hne]
  simpa using updateFirstConv_frame s msgs ts db

/-- Witness for claim C10 on a one-document table. -/
theorem save_updates_only_messages_and_updated_at_witness :
    query_conversations [demoDoc] "s1" ≠ [] ∧
    ((save_conversation_history "u9" "s1" [⟨Role.user, "hi"⟩] "t9"
        [demoDoc]).2).map (·.created_at) = [demoDoc].map (·.created_at) :=
  ⟨by decide,
   (save_updates_only_messages_and_updated_at "u9" "s1" [⟨Role.user, "hi"⟩]
     "t9" [demoDoc] (by decide)).2.2.2.1⟩

lemma process_chat_message_session_id (d : TurnDeps) (langflowOk : Bool)
    (user_id message : String) (session_id? : Option String)
    (fresh now : String) (cache : Cache) (db : ConvTable)
    (leads : LeadsTable) :
    (process_chat_message d langflowOk user_id message session_id? fresh now
        cache db leads).1.2
      = match session_id? with
        | none => fresh
        | some s => if s.data.isEmpty then fresh else s := by
  cases langflowOk with
  | true => rfl
  | false =>
    rw [process_chat_message.eq_def]
    simp only [Bool.false_eq_true, if_false]
    split <;> rfl

/-- Claim C7: when the completion capability raises on every invocation, the
turn returns the fixed apology text, and the returned session id is exactly
the one any other completion oracle (in particular a successful one) would
produce for the same request — failure does not change session tracking.
This holds on both the LangFlow-integration path and the direct fallback
path. -/
theorem completion_failure_apology (d : TurnDeps) (langflowOk : Bool)
    (user_id message : String) (session_id? : Option String)
    (fresh now : String) (cache : Cache) (db : ConvTable) (leads : LeadsTable)
    (hfail : ∀ msgs, d.llm msgs = .error ()) :
    (process_chat_message d langflowOk user_id message session_id? fresh now
        cache db leads).1.1 = apologyText ∧
    ∀ d2 : TurnDeps,
      (process_chat_message d2 langflowOk user_id message session_id? fresh
          now cache db leads).1.2
        = (process_chat_message d langflowOk user_id message session_id? fresh
            now cache db leads).1.2 := by
  constructor
  · cases langflowOk with
    | true =>
      simp [process_chat_message, process_message, generate_response, hfail]
    | false =>
      simp [process_chat_message, hfail]
  · intro d2
    rw [process_chat_message_session_id, process_chat_message_session_id]

/-- Witness for claim C7 with the always-raising dependencies. -/
theorem completion_failure_apology_witness :
    errorDeps.llm [] = Except.error () ∧
    (process_chat_message errorDeps true "u" "hi" (some "s1") "f" "n" [] []
        []).1.1 = apologyText :=
  ⟨rfl,
   (completion_failure_apology errorDeps true "u" "hi" (some "s1") "f" "n" []
     [] [] (fun _ => rfl)).1⟩

/-- Claim C9: two sequential turns through the LangFlow path with the same
non-empty session id both return that session id unchanged, and the history
the second turn loads is exactly the history the first turn loaded followed
by the user and assistant messages the first turn appended and persisted, in
order. -/
theorem session_continuity (d1 d2 : TurnDeps)
    (u1 u2 m1 m2 s fresh1 fresh2 now1 now2 : String)
    (cache1 cache2 : Cache) (db : ConvTable) (leads : LeadsTable)
    (hs : s ≠ "") :
    (process_chat_message d1 true u1 m1 (some s) fresh1 now1 cache1 db
        leads).1.2 = s ∧
    (process_chat_message d2 true u2 m2 (some s) fresh2 now2 cache2
        (process_chat_message d1 true u1 m1 (some s) fresh1 now1 cache1 db
          leads).2.2.1
        (process_chat_message d1 true u1 m1 (some s) fresh1 now1 cache1 db
          leads).2.2.2).1.2 = s ∧
    get_conversation_history
        (process_chat_message d1 true u1 m1 (some s) fresh1 now1 cache1 db
          leads).2.2.1 s
      = get_conversation_history db s ++
          [⟨Role.user, m1⟩,
           ⟨Role.assistant,
            (process_chat_message d1 true u1 m1 (some s) fresh1 now1 cache1
              db leads).1.1⟩] := by
  have hempty : s.data.isEmpty = false := (string_ne_empty_iff s).mp hs
  refine ⟨?_, ?_, ?_⟩
  · rw [process_chat_message_session_id]
    simp [hempty]
  · rw [process_chat_message_session_id]
    simp [hempty]
  · simp only [process_chat_message, hempty, Bool.false_eq_true, if_false,
      if_true]
    rw [get_after_save]

/-- Witness for claim C9 at a concrete non-empty session id. -/
theorem session_continuity_witness :
    ("s1" : String) ≠ "" ∧
    (process_chat_message okDeps true "u" "hi" (some "s1") "f" "n" [] []
        []).1.2 = "s1" :=
  ⟨by decide,
   (session_continuity okDeps okDeps "u" "u" "hi" "hi" "s1" "f" "f" "n" "n"
     [] [] [] [] (by decide)).1⟩

end Chatbot
